import Mathlib

/-!
Verification of the content script of auto-invert-bright-images
(src/extension/content.js) against its design specification.

The RGBA pixel buffer of an ImageData object is modelled as the flat byte
list of the underlying typed array: 4 bytes per pixel, each byte in 0..255.
JavaScript number arithmetic on these small integers is exact, and every
float comparison performed by the script coincides with the corresponding
exact rational comparison for all feasible buffer sizes, so brightness and
ratio arithmetic is embedded in ℚ.
-/

namespace AutoInvert

/-- A pixel buffer: the flat byte list of a Uint8ClampedArray. -/
abbrev Buffer := List Nat

/-- The sampling loop of shouldInvert (content.js lines 158-168): starting at
byte offset i it advances 20 bytes per step, incrementing samples each
iteration and brightPixels when the channel mean exceeds 200.  An
out-of-range read is modelled as 0; in the source such a read yields
undefined and a NaN brightness, and in both cases the pixel is counted as
not bright. -/
def classifyLoop (data : Buffer) (i brightPixels samples : Nat) : Nat × Nat :=
  if h : i < data.length then
    let r := data.getD i 0
    let g := data.getD (i + 1) 0
    let b := data.getD (i + 2) 0
    let brightness : ℚ := ((r + g + b : Nat) : ℚ) / 3
    classifyLoop data (i + 20)
      (if brightness > 200 then brightPixels + 1 else brightPixels)
      (samples + 1)
  else
    (brightPixels, samples)
termination_by data.length - i
decreasing_by omega

/-- shouldInvert (content.js lines 154-172): runs the sampling loop over the
whole buffer and reports whether brightPixels / samples exceeds 0.6.  On the
empty buffer the source computes NaN = 0/0 and NaN > 0.6 is false; here
rational 0/0 = 0 and 0 > 0.6 is false, the same verdict. -/
def shouldInvert (data : Buffer) : Bool :=
  let p := classifyLoop data 0 0 0
  decide ((p.1 : ℚ) / (p.2 : ℚ) > 0.6)

/-- The byte offsets a loop visits running from i up to len in steps of 20. -/
def sampleOffsets (len i : Nat) : List Nat :=
  if h : i < len then i :: sampleOffsets len (i + 20) else []
termination_by len - i
decreasing_by omega

/-- The sampled pixel at byte offset i is bright: the mean of its red, green
and blue channel bytes exceeds 200. -/
def pixelBright (data : Buffer) (i : Nat) : Bool :=
  decide (((data.getD i 0 + data.getD (i + 1) 0 + data.getD (i + 2) 0 : Nat) : ℚ) / 3 > 200)

/-- Total number of pixels the classifier samples in a buffer. -/
def sampleCount (data : Buffer) : Nat := (sampleOffsets data.length 0).length

/-- Number of sampled pixels of a buffer that are bright. -/
def brightCount (data : Buffer) : Nat :=
  ((sampleOffsets data.length 0).filter (pixelBright data)).length

/-- One iteration of the inversion loop body of invertImage (content.js
lines 184-186): the red, green and blue bytes at offsets i, i+1, i+2 are
each replaced by 255 minus their current value, in that order; the alpha
byte at i+3 is intentionally untouched.  A read past the end of the typed
array is modelled as 0 and a write past the end is ignored, as in the
source. -/
def invertStep (d : Buffer) (i : Nat) : Buffer :=
  let d1 := d.set i (255 - d.getD i 0)
  let d2 := d1.set (i + 1) (255 - d1.getD (i + 1) 0)
  d2.set (i + 2) (255 - d2.getD (i + 2) 0)

/-- The inversion loop of invertImage (content.js lines 183-188): offsets
advance 4 bytes per step while within the buffer. -/
def invertLoop (d : Buffer) (i : Nat) : Buffer :=
  if h : i < d.length then invertLoop (invertStep d i) (i + 4) else d
termination_by d.length - i
decreasing_by simp only [invertStep, List.length_set]; omega

/-- invertImage (content.js lines 180-191), restricted to its effect on the
pixel buffer: run the inversion loop from offset 0.  The write-back of the
buffer into the canvas is modelled in processImage. -/
def invertImage (d : Buffer) : Buffer := invertLoop d 0

/-- The attributes of an img element that the script consumes or mutates:
natural size, source locator (its character sequence), the load-completion
flag, the data-processed marker, and the two style properties written by
the CSS fallback.  styleFilter holds the filter value together with its
priority flag (true models the "important" priority). -/
structure Img where
  naturalWidth : Nat
  naturalHeight : Nat
  src : List Char
  complete : Bool
  processed : Bool
  styleFilter : Option (String × Bool)
  styleBackgroundColor : Option String

/-- Behaviour of ctx.drawImage for this image: success, or the thrown
cross-origin security error. -/
inductive DrawResult where
  | ok : DrawResult
  | corsError : DrawResult
deriving DecidableEq

/-- The browser environment of one processImage call: whether getContext
returns a context, how drawImage behaves, how getImageData behaves (none
models the tainted-canvas throw, some data the returned pixel buffer), and
the toDataURL encoding of a canvas holding a given buffer. -/
structure Env where
  ctxAvailable : Bool
  drawResult : DrawResult
  readResult : Option Buffer
  encode : Buffer → List Char

/-- Which terminal path processImage took. -/
inductive Outcome where
  | skippedSmall | skippedGif | noCtx | fallback | notInverted | inverted
deriving DecidableEq

/-- The observable result of one processImage call: the img element after
the call, the offscreen canvas buffer at the end (none when pixel data was
never obtained), whether a draw and a pixel read were attempted, whether
the classifier ran, and the path taken. -/
structure ProcResult where
  img : Img
  canvasData : Option Buffer
  attemptedDraw : Bool
  attemptedRead : Bool
  ranClassifier : Bool
  outcome : Outcome

/-- The test img.src.toLowerCase().endsWith(".gif") of content.js line 85,
embedded on the character sequence of the source locator.  (The byte-level
String.endsWith of the Lean core library is not kernel-reducible, so the
suffix test is stated on List Char, with which it agrees.) -/
def srcIsGif (src : List Char) : Bool :=
  List.isSuffixOf ".gif".data (src.map Char.toLower)

/-- applyCssFallback (content.js lines 207-216): sets the filter style
property to the inversion/hue-rotation/brightness/contrast value with the
important priority, and the background color to black; nothing else of the
element changes. -/
def applyCssFallback (img : Img) : Img :=
  { img with
    styleFilter :=
      some ("invert(1) hue-rotate(180deg) brightness(1.1) contrast(1.1)", true),
    styleBackgroundColor := some "black" }

/-- processImage (content.js lines 71-139): mark the element processed
first; skip images smaller than 120 in either natural dimension; skip
sources ending in .gif; abort if no 2d context is available; on a
cross-origin drawImage throw or a tainted getImageData throw apply the CSS
fallback; otherwise classify, and either stop (verdict false) or invert the
buffer, write it back to the canvas and replace the source with the
re-encoded canvas contents. -/
def processImage (env : Env) (img0 : Img) : ProcResult :=
  let img : Img := { img0 with processed := true }
  let width := img.naturalWidth
  let height := img.naturalHeight
  if width < 120 ∨ height < 120 then
    { img := img, canvasData := none, attemptedDraw := false,
      attemptedRead := false, ranClassifier := false,
      outcome := Outcome.skippedSmall }
  else if srcIsGif img.src then
    { img := img, canvasData := none, attemptedDraw := false,
      attemptedRead := false, ranClassifier := false,
      outcome := Outcome.skippedGif }
  else if ¬ env.ctxAvailable then
    { img := img, canvasData := none, attemptedDraw := false,
      attemptedRead := false, ranClassifier := false,
      outcome := Outcome.noCtx }
  else
    match env.drawResult with
    | DrawResult.corsError =>
      { img := applyCssFallback img, canvasData := none,
        attemptedDraw := true, attemptedRead := false,
        ranClassifier := false, outcome := Outcome.fallback }
    | DrawResult.ok =>
      match env.readResult with
      | none =>
        { img := applyCssFallback img, canvasData := none,
          attemptedDraw := true, attemptedRead := true,
          ranClassifier := false, outcome := Outcome.fallback }
      | some data =>
        if ¬ shouldInvert data then
          { img := img, canvasData := some data, attemptedDraw := true,
            attemptedRead := true, ranClassifier := true,
            outcome := Outcome.notInverted }
        else
          { img := { img with src := env.encode (invertImage data) },
            canvasData := some (invertImage data), attemptedDraw := true,
            attemptedRead := true, ranClassifier := true,
            outcome := Outcome.inverted }

/-- The treatment of one image by scanImages (content.js lines 51-59): an
image already carrying the processed marker is skipped; a complete image
enters processImage at once; an incomplete image only has an onload
callback registered, which is not a mutation during the scan itself. -/
def scanStep (env : Env) (img : Img) : Img :=
  if img.processed then img
  else if img.complete then (processImage env img).img
  else img

/-- Witness fixture: a 50 by 50 icon-sized image. -/
def imgSmall : Img := ⟨50, 50, "a.png".data, true, false, none, none⟩

/-- Witness fixture: a 300 by 300 document-sized image. -/
def imgBig : Img := ⟨300, 300, "a.png".data, true, false, none, none⟩

/-- Witness fixture: a 300 by 300 image whose source ends in .GIF. -/
def imgGifUpper : Img := ⟨300, 300, "shot.GIF".data, true, false, none, none⟩

/-- Witness fixture: pixel access succeeds and yields one white pixel. -/
def envWhite : Env :=
  ⟨true, DrawResult.ok, some [255, 255, 255, 255], fun _ => "data:inv".data⟩

/-- Witness fixture: pixel access succeeds and yields one black pixel. -/
def envBlack : Env :=
  ⟨true, DrawResult.ok, some [0, 0, 0, 0], fun _ => "data:inv".data⟩

/-- Witness fixture: drawImage throws the cross-origin error. -/
def envCorsDraw : Env :=
  ⟨true, DrawResult.corsError, some [], fun _ => "x".data⟩

/-- Witness fixture: drawImage succeeds but getImageData throws. -/
def envCorsRead : Env := ⟨true, DrawResult.ok, none, fun _ => "x".data⟩

/-- Witness fixture: getContext returns null. -/
def envNoCtx : Env := ⟨false, DrawResult.ok, some [], fun _ => "x".data⟩


lemma classifyLoop_eq_counts (data : Buffer) :
    ∀ i b s, classifyLoop data i b s =
      (b + ((sampleOffsets data.length i).filter (pixelBright data)).length,
       s + (sampleOffsets data.length i).length) := by
  have H : ∀ n i b s, data.length - i ≤ n →
      classifyLoop data i b s =
        (b + ((sampleOffsets data.length i).filter (pixelBright data)).length,
         s + (sampleOffsets data.length i).length) := by
    intro n
    induction n with
    | zero =>
      intro i b s hn
      have hi : ¬ i < data.length := by omega
      rw [classifyLoop, sampleOffsets]
      simp [hi]
    | succ n ih =>
      intro i b s hn
      by_cases hi : i < data.length
      · rw [classifyLoop, sampleOffsets]
        simp only [hi, dif_pos]
        rw [ih (i + 20) _ _ (by omega)]
        simp only [List.filter_cons, List.length_cons]
        by_cases hb : pixelBright data i = true
        · have hb2 : (((data.getD i 0 + data.getD (i + 1) 0 + data.getD (i + 2) 0 : Nat) : ℚ) / 3 > 200) := by
            simpa [pixelBright] using hb
          simp only [hb2, if_pos, hb, List.length_cons, Prod.mk.injEq]
          omega
        · have hb2 : ¬ (((data.getD i 0 + data.getD (i + 1) 0 + data.getD (i + 2) 0 : Nat) : ℚ) / 3 > 200) := by
            simpa [pixelBright] using hb
          rw [if_neg hb2, if_neg hb]
          simp only [List.length_cons, Prod.mk.injEq]
          exact ⟨trivial, by omega⟩
      · rw [classifyLoop, sampleOffsets]
        simp [hi]
  intro i b s
  exact H (data.length - i) i b s le_rfl

lemma sampleOffsets_length (len : Nat) :
    ∀ i, (sampleOffsets len i).length = (len - i + 19) / 20 := by
  have H : ∀ n i, len - i ≤ n → (sampleOffsets len i).length = (len - i + 19) / 20 := by
    intro n
    induction n with
    | zero =>
      intro i hn
      have hi : ¬ i < len := by omega
      rw [sampleOffsets]
      simp [hi]
      omega
    | succ n ih =>
      intro i hn
      by_cases hi : i < len
      · rw [sampleOffsets]
        simp only [hi, dif_pos, List.length_cons]
        rw [ih (i + 20) (by omega)]
        omega
      · rw [sampleOffsets]
        simp [hi]
        omega
  intro i
  exact H (len - i) i le_rfl

lemma sampleOffsets_pos {len i : Nat} (h : i < len) :
    sampleOffsets len i = i :: sampleOffsets len (i + 20) := by
  rw [sampleOffsets]; simp [h]

lemma sampleOffsets_neg {len i : Nat} (h : ¬ i < len) :
    sampleOffsets len i = [] := by
  rw [sampleOffsets]; simp [h]

lemma shouldInvert_eq_counts (data : Buffer) :
    shouldInvert data =
      decide ((brightCount data : ℚ) / (sampleCount data : ℚ) > 0.6) := by
  have h := classifyLoop_eq_counts data 0 0 0
  simp only [shouldInvert, h, brightCount, sampleCount, Nat.zero_add]

lemma ceil_nat_div_five (N : Nat) : ⌈(N : ℚ) / 5⌉₊ = (N + 4) / 5 := by
  rcases Nat.eq_zero_or_pos N with h0 | hpos
  · subst h0; simp
  · have hk : (N + 4) / 5 ≠ 0 := by omega
    rw [Nat.ceil_eq_iff hk]
    constructor
    · rw [lt_div_iff₀ (by norm_num : (0 : ℚ) < 5)]
      have h : ((N + 4) / 5 - 1) * 5 < N := by omega
      exact_mod_cast h
    · rw [div_le_iff₀ (by norm_num : (0 : ℚ) < 5)]
      have h : N ≤ (N + 4) / 5 * 5 := by omega
      exact_mod_cast h

/-- Claim C1: shouldInvert counts a sampled pixel as bright exactly when the
mean of its red, green and blue channels is strictly greater than 200 (the
brightCount definition is built from pixelBright, which says exactly that),
and it returns true iff brightCount / sampleCount exceeds 0.6 as an exact
ratio; consequently a buffer with a positive number of samples of which at
least 61 percent are bright yields true, and one with at most 60 percent
bright yields false. -/
theorem shouldInvert_ratio_characterisation (data : Buffer) :
    (shouldInvert data = true ↔
      (brightCount data : ℚ) / (sampleCount data : ℚ) > 0.6)
    ∧ (0 < sampleCount data →
        ((61 * sampleCount data ≤ 100 * brightCount data →
            shouldInvert data = true)
         ∧ (100 * brightCount data ≤ 60 * sampleCount data →
            shouldInvert data = false))) := by
  have he := shouldInvert_eq_counts data
  have hiff : shouldInvert data = true ↔
      (brightCount data : ℚ) / (sampleCount data : ℚ) > 0.6 := by
    rw [he]; exact decide_eq_true_iff
  refine ⟨hiff, fun hs => ⟨fun h61 => ?_, fun h60 => ?_⟩⟩
  · rw [hiff, gt_iff_lt, lt_div_iff₀ (by exact_mod_cast hs)]
    have key : 3 * sampleCount data < 5 * brightCount data := by omega
    have keyQ : (3 : ℚ) * sampleCount data < 5 * brightCount data := by
      exact_mod_cast key
    nlinarith [keyQ]
  · have hfalse : ¬ ((brightCount data : ℚ) / (sampleCount data : ℚ) > 0.6) := by
      rw [gt_iff_lt, lt_div_iff₀ (by exact_mod_cast hs)]
      have key : 100 * brightCount data ≤ 60 * sampleCount data := h60
      have keyQ : (100 : ℚ) * brightCount data ≤ 60 * sampleCount data := by
        exact_mod_cast key
      intro hcon
      nlinarith [keyQ, hcon]
    rw [he, decide_eq_false_iff_not]
    exact hfalse

/-- Witness for C1 at concrete buffers: a single all-white pixel is
classified for inversion and a single all-black pixel is not. -/
theorem shouldInvert_ratio_characterisation_witness :
    shouldInvert [255, 255, 255, 255] = true
    ∧ shouldInvert [0, 0, 0, 0] = false := by
  have hso : sampleOffsets 4 0 = [0] := by
    rw [sampleOffsets_pos (by norm_num), sampleOffsets_neg (by norm_num)]
  have hs1 : sampleCount [255, 255, 255, 255] = 1 := by
    simp [sampleCount, hso]
  have hb1 : brightCount [255, 255, 255, 255] = 1 := by
    have hpb : pixelBright [255, 255, 255, 255] 0 = true := by
      simp only [pixelBright, List.getD_cons_zero, List.getD_cons_succ,
        decide_eq_true_eq]
      norm_num
    simp [brightCount, hso, hpb]
  have hs2 : sampleCount [0, 0, 0, 0] = 1 := by
    simp [sampleCount, hso]
  have hb2 : brightCount [0, 0, 0, 0] = 0 := by
    have hpb : pixelBright [0, 0, 0, 0] 0 = false := by
      simp only [pixelBright, List.getD_cons_zero, List.getD_cons_succ,
        decide_eq_false_iff_not]
      norm_num
    simp [brightCount, hso, hpb]
  constructor
  · exact ((shouldInvert_ratio_characterisation [255, 255, 255, 255]).2
      (by rw [hs1]; norm_num)).1 (by rw [hs1, hb1]; norm_num)
  · exact ((shouldInvert_ratio_characterisation [0, 0, 0, 0]).2
      (by rw [hs2]; norm_num)).2 (by rw [hs2, hb2]; norm_num)

/-- Claim C5: on a buffer of N pixels (4N bytes) the sampling loop, starting
at byte offset 0 and advancing 20 bytes per step, takes exactly ceil(N / 5)
samples. -/
theorem classifyLoop_sample_stride (data : Buffer) (N : Nat)
    (h : data.length = 4 * N) :
    (classifyLoop data 0 0 0).2 = ⌈(N : ℚ) / 5⌉₊ := by
  rw [classifyLoop_eq_counts data 0 0 0]
  simp only []
  rw [sampleOffsets_length data.length 0, ceil_nat_div_five, h]
  omega

/-- Witness for C5 at a concrete buffer of 3 pixels: ceil(3/5) = 1 sample. -/
theorem classifyLoop_sample_stride_witness :
    ([7, 7, 7, 7, 7, 7, 7, 7, 7, 7, 7, 7] : Buffer).length = 4 * 3
    ∧ (classifyLoop [7, 7, 7, 7, 7, 7, 7, 7, 7, 7, 7, 7] 0 0 0).2 = ⌈(3 : ℚ) / 5⌉₊ := by
  refine ⟨by norm_num, classifyLoop_sample_stride _ 3 (by norm_num)⟩

/-- Claim C10: the classifier is total on the empty buffer: the loop takes
zero samples, the guarded 0/0 ratio comparison does not pass the strict 0.6
test, and the verdict is false (should not invert). -/
theorem shouldInvert_empty :
    classifyLoop [] 0 0 0 = (0, 0) ∧ shouldInvert [] = false := by
  have hso : sampleOffsets 0 0 = [] := sampleOffsets_neg (by norm_num)
  have h := classifyLoop_eq_counts ([] : Buffer) 0 0 0
  simp only [List.length_nil, hso, List.filter_nil, List.length_nil,
    Nat.add_zero] at h
  refine ⟨h, ?_⟩
  rw [shouldInvert_eq_counts]
  have hb : brightCount ([] : Buffer) = 0 := by
    simp [brightCount, hso]
  have hs : sampleCount ([] : Buffer) = 0 := by
    simp [sampleCount, hso]
  rw [hb, hs]
  norm_num

lemma length_invertStep (d : Buffer) (i : Nat) :
    (invertStep d i).length = d.length := by
  simp [invertStep, List.length_set]

lemma getElem?_set_sub (l : List Nat) (k a j : Nat) :
    (l.set k a)[j]? = if j = k ∧ k < l.length then some a else l[j]? := by
  rw [List.getElem?_set]
  by_cases h : k = j
  · subst h
    by_cases hk : k < l.length
    · simp [hk]
    · simp [hk, List.getElem?_eq_none (by omega : l.length ≤ k)]
  · rw [if_neg h, if_neg (fun hc : j = k ∧ k < l.length => h hc.1.symm)]

lemma invertStep_getElem? (d : Buffer) (i j : Nat) :
    (invertStep d i)[j]? =
      if j = i ∨ j = i + 1 ∨ j = i + 2
        then (fun v => 255 - v) <$> d[j]? else d[j]? := by
  have h1 : (d.set i (255 - d.getD i 0)).getD (i + 1) 0 = d.getD (i + 1) 0 := by
    simp only [List.getD_eq_getElem?_getD, List.getElem?_set_ne (by omega : i ≠ i + 1)]
  have h2 : ((d.set i (255 - d.getD i 0)).set (i + 1)
      (255 - d.getD (i + 1) 0)).getD (i + 2) 0 = d.getD (i + 2) 0 := by
    simp only [List.getD_eq_getElem?_getD,
      List.getElem?_set_ne (by omega : i + 1 ≠ i + 2),
      List.getElem?_set_ne (by omega : i ≠ i + 2)]
  simp only [invertStep, h1, h2, getElem?_set_sub, List.length_set]
  by_cases hjl : j < d.length
  · have hmap : (fun v => 255 - v) <$> d[j]? = some (255 - d.getD j 0) := by
      rw [List.getElem?_eq_getElem hjl, List.getD_eq_getElem?_getD,
        List.getElem?_eq_getElem hjl]
      rfl
    rcases Nat.lt_or_ge j i with hc | hc
    · have : ¬ (j = i ∨ j = i + 1 ∨ j = i + 2) := by omega
      simp only [if_neg this]
      rw [if_neg (by omega), if_neg (by omega), if_neg (by omega)]
    · by_cases e0 : j = i
      · subst e0
        rw [if_neg (by omega), if_neg (by omega), if_pos ⟨rfl, hjl⟩,
          if_pos (by omega), hmap]
      · by_cases e1 : j = i + 1
        · subst e1
          rw [if_neg (by omega), if_pos ⟨rfl, hjl⟩, if_pos (by omega), hmap]
        · by_cases e2 : j = i + 2
          · subst e2
            rw [if_pos ⟨rfl, hjl⟩, if_pos (by omega), hmap]
          · rw [if_neg (by omega), if_neg (by omega), if_neg (by omega),
              if_neg (by omega)]
  · have hnone : d[j]? = none := List.getElem?_eq_none (by omega)
    rw [if_neg (by omega), if_neg (by omega), if_neg (by omega), hnone]
    by_cases hc : j = i ∨ j = i + 1 ∨ j = i + 2
    · rw [if_pos hc]; rfl
    · rw [if_neg hc]

lemma invertLoop_getElem? (d : Buffer) (i : Nat) (hi : i % 4 = 0) (j : Nat) :
    (invertLoop d i)[j]? =
      if i ≤ j ∧ j % 4 ≠ 3 then (fun v => 255 - v) <$> d[j]? else d[j]? := by
  have H : ∀ n (d : Buffer) i, i % 4 = 0 → d.length - i ≤ n → ∀ j,
      (invertLoop d i)[j]? =
        if i ≤ j ∧ j % 4 ≠ 3 then (fun v => 255 - v) <$> d[j]? else d[j]? := by
    intro n
    induction n with
    | zero =>
      intro d i hi4 hn j
      have hik : ¬ i < d.length := by omega
      rw [invertLoop, dif_neg hik]
      by_cases hc : i ≤ j ∧ j % 4 ≠ 3
      · rw [if_pos hc, List.getElem?_eq_none (by omega)]; rfl
      · rw [if_neg hc]
    | succ n ih =>
      intro d i hi4 hn j
      by_cases hik : i < d.length
      · rw [invertLoop, dif_pos hik]
        rw [ih (invertStep d i) (i + 4) (by omega)
          (by rw [length_invertStep]; omega) j]
        rw [invertStep_getElem?]
        by_cases hmem : j = i ∨ j = i + 1 ∨ j = i + 2
        · rw [if_pos hmem, if_neg (by omega), if_pos (by omega)]
        · rw [if_neg hmem]
          by_cases hc : i + 4 ≤ j ∧ j % 4 ≠ 3
          · rw [if_pos hc, if_pos (by omega)]
          · rw [if_neg hc, if_neg (by omega)]
      · rw [invertLoop, dif_neg hik]
        by_cases hc : i ≤ j ∧ j % 4 ≠ 3
        · rw [if_pos hc, List.getElem?_eq_none (by omega)]; rfl
        · rw [if_neg hc]
  exact H (d.length - i) d i hi le_rfl j

lemma invertImage_getElem? (d : Buffer) (j : Nat) :
    (invertImage d)[j]? =
      if j % 4 = 3 then d[j]? else (fun v => 255 - v) <$> d[j]? := by
  rw [invertImage, invertLoop_getElem? d 0 (by norm_num) j]
  by_cases h : j % 4 = 3
  · rw [if_neg (by omega), if_pos h]
  · rw [if_pos ⟨Nat.zero_le j, h⟩, if_neg h]

/-- Claim C2: applying the pixel inversion twice restores every byte of a
buffer whose bytes all lie in 0..255 (255 - (255 - v) = v), and a single
application leaves every alpha byte (offset congruent to 3 mod 4)
unchanged. -/
theorem invertImage_involutive_alpha (d : Buffer) (hd : ∀ v ∈ d, v ≤ 255) :
    invertImage (invertImage d) = d
    ∧ ∀ j, j % 4 = 3 → (invertImage d)[j]? = d[j]? := by
  constructor
  · apply List.ext_getElem?
    intro j
    rw [invertImage_getElem?, invertImage_getElem?]
    by_cases h : j % 4 = 3
    · rw [if_pos h, if_pos h]
    · rw [if_neg h, if_neg h]
      cases hj : d[j]? with
      | none => rfl
      | some v =>
        have hv : v ≤ 255 := hd v (List.getElem?_mem hj)
        simp only [Option.map_some]
        congr 1
        omega
  · intro j h
    rw [invertImage_getElem?, if_pos h]

/-- Witness for C2 at a concrete one-pixel buffer. -/
theorem invertImage_involutive_alpha_witness :
    (∀ v ∈ ([10, 20, 30, 40] : Buffer), v ≤ 255)
    ∧ invertImage (invertImage [10, 20, 30, 40]) = [10, 20, 30, 40]
    ∧ ∀ j, j % 4 = 3 →
        (invertImage ([10, 20, 30, 40] : Buffer))[j]? =
          ([10, 20, 30, 40] : Buffer)[j]? :=
  ⟨by decide,
   (invertImage_involutive_alpha [10, 20, 30, 40] (by decide)).1,
   (invertImage_involutive_alpha [10, 20, 30, 40] (by decide)).2⟩

lemma shouldInvert_white4 : shouldInvert [255, 255, 255, 255] = true := by
  rw [shouldInvert_eq_counts]
  have hso : sampleOffsets 4 0 = [0] := by
    rw [sampleOffsets_pos (by norm_num), sampleOffsets_neg (by norm_num)]
  have hpb : pixelBright [255, 255, 255, 255] 0 = true := by
    simp only [pixelBright, List.getD_cons_zero, List.getD_cons_succ,
      decide_eq_true_eq]
    norm_num
  have hb : brightCount [255, 255, 255, 255] = 1 := by
    simp [brightCount, hso, hpb]
  have hs : sampleCount [255, 255, 255, 255] = 1 := by
    simp [sampleCount, hso]
  rw [hb, hs]
  norm_num

lemma shouldInvert_black4 : shouldInvert [0, 0, 0, 0] = false := by
  rw [shouldInvert_eq_counts]
  have hso : sampleOffsets 4 0 = [0] := by
    rw [sampleOffsets_pos (by norm_num), sampleOffsets_neg (by norm_num)]
  have hpb : pixelBright [0, 0, 0, 0] 0 = false := by
    simp only [pixelBright, List.getD_cons_zero, List.getD_cons_succ,
      decide_eq_false_iff_not]
    norm_num
  have hb : brightCount [0, 0, 0, 0] = 0 := by
    simp [brightCount, hso, hpb]
  have hs : sampleCount [0, 0, 0, 0] = 1 := by
    simp [sampleCount, hso]
  rw [hb, hs]
  norm_num

/-- Claim C4: for an image whose natural width or height is below 120,
processImage sets the processed marker and stops: no draw or read is
attempted, the canvas holds nothing, source and style are untouched, and a
later scan (with any environment) leaves the marked image alone. -/
theorem processImage_small (env env2 : Env) (img : Img)
    (h : img.naturalWidth < 120 ∨ img.naturalHeight < 120) :
    processImage env img =
      ⟨{ img with processed := true }, none, false, false, false,
        Outcome.skippedSmall⟩
    ∧ scanStep env2 (processImage env img).img = (processImage env img).img := by
  have e : processImage env img =
      ⟨{ img with processed := true }, none, false, false, false,
        Outcome.skippedSmall⟩ := by
    unfold processImage
    dsimp only
    rw [if_pos h]
  refine ⟨e, ?_⟩
  rw [e]
  unfold scanStep
  dsimp only
  rw [if_pos rfl]

/-- Witness for C4 at a 50 by 50 image. -/
theorem processImage_small_witness :
    (imgSmall.naturalWidth < 120 ∨ imgSmall.naturalHeight < 120)
    ∧ (processImage envWhite imgSmall =
        ⟨{ imgSmall with processed := true }, none, false, false, false,
          Outcome.skippedSmall⟩
       ∧ scanStep envBlack (processImage envWhite imgSmall).img =
          (processImage envWhite imgSmall).img) :=
  ⟨by decide, processImage_small envWhite envBlack imgSmall (by decide)⟩

/-- Claim C8: for an image whose lowercased source locator ends in .gif,
processImage never attempts a draw or a read: it returns with only the
processed marker set (either at the size check or at the gif check), with
no canvas contents and no source or style mutation. -/
theorem processImage_gif (env : Env) (img : Img)
    (hg : srcIsGif img.src = true) :
    (processImage env img).img = { img with processed := true }
    ∧ (processImage env img).attemptedDraw = false
    ∧ (processImage env img).attemptedRead = false
    ∧ (processImage env img).canvasData = none := by
  by_cases hsmall : img.naturalWidth < 120 ∨ img.naturalHeight < 120
  · have e : processImage env img =
        ⟨{ img with processed := true }, none, false, false, false,
          Outcome.skippedSmall⟩ := by
      unfold processImage
      dsimp only
      rw [if_pos hsmall]
    rw [e]
    exact ⟨rfl, rfl, rfl, rfl⟩
  · have e : processImage env img =
        ⟨{ img with processed := true }, none, false, false, false,
          Outcome.skippedGif⟩ := by
      unfold processImage
      dsimp only
      rw [if_neg hsmall, if_pos hg]
    rw [e]
    exact ⟨rfl, rfl, rfl, rfl⟩

/-- Witness for C8 at an uppercase .GIF source. -/
theorem processImage_gif_witness :
    srcIsGif imgGifUpper.src = true
    ∧ ((processImage envWhite imgGifUpper).img =
        { imgGifUpper with processed := true }
       ∧ (processImage envWhite imgGifUpper).attemptedDraw = false
       ∧ (processImage envWhite imgGifUpper).attemptedRead = false
       ∧ (processImage envWhite imgGifUpper).canvasData = none) :=
  ⟨by decide, processImage_gif envWhite imgGifUpper (by decide)⟩

/-- Claim C9: for an eligible image, when no 2d context can be acquired
processImage aborts silently: no draw, no classification, no fallback, the
image is left untouched apart from the processed marker. -/
theorem processImage_noCtx (env : Env) (img : Img)
    (hw : ¬ (img.naturalWidth < 120 ∨ img.naturalHeight < 120))
    (hg : srcIsGif img.src = false)
    (hc : env.ctxAvailable = false) :
    processImage env img =
      ⟨{ img with processed := true }, none, false, false, false,
        Outcome.noCtx⟩ := by
  unfold processImage
  dsimp only
  rw [if_neg hw, if_neg (by simp [hg]), if_pos (by simp [hc])]

/-- Witness for C9 at a 300 by 300 image with a null context. -/
theorem processImage_noCtx_witness :
    (¬ (imgBig.naturalWidth < 120 ∨ imgBig.naturalHeight < 120))
    ∧ srcIsGif imgBig.src = false
    ∧ envNoCtx.ctxAvailable = false
    ∧ processImage envNoCtx imgBig =
        ⟨{ imgBig with processed := true }, none, false, false, false,
          Outcome.noCtx⟩ :=
  ⟨by decide, by decide, by decide,
   processImage_noCtx envNoCtx imgBig (by decide) (by decide) (by decide)⟩

/-- Claim C3: for an eligible image, when drawImage throws the cross-origin
denial, or drawing succeeds and getImageData throws it, processImage
invokes the CSS fallback: the filter is set to the inversion value with
hue rotation and brightness/contrast boosts at important priority, the
background becomes opaque black, the source locator stays untouched, and
the classifier never runs. -/
theorem processImage_cors_fallback (env : Env) (img : Img)
    (hw : ¬ (img.naturalWidth < 120 ∨ img.naturalHeight < 120))
    (hg : srcIsGif img.src = false)
    (hc : env.ctxAvailable = true)
    (hden : env.drawResult = DrawResult.corsError ∨
      (env.drawResult = DrawResult.ok ∧ env.readResult = none)) :
    (processImage env img).img =
      applyCssFallback { img with processed := true }
    ∧ (processImage env img).img.styleFilter =
        some ("invert(1) hue-rotate(180deg) brightness(1.1) contrast(1.1)",
          true)
    ∧ (processImage env img).img.styleBackgroundColor = some "black"
    ∧ (processImage env img).img.src = img.src
    ∧ (processImage env img).ranClassifier = false
    ∧ (processImage env img).outcome = Outcome.fallback := by
  have key : (processImage env img).img =
      applyCssFallback { img with processed := true }
      ∧ (processImage env img).ranClassifier = false
      ∧ (processImage env img).outcome = Outcome.fallback := by
    rcases hden with hd | hd
    · have e : processImage env img =
          ⟨applyCssFallback { img with processed := true }, none, true,
            false, false, Outcome.fallback⟩ := by
        unfold processImage
        dsimp only
        rw [if_neg hw, if_neg (by simp [hg]), if_neg (by simp [hc]), hd]
      rw [e]
      exact ⟨rfl, rfl, rfl⟩
    · have e : processImage env img =
          ⟨applyCssFallback { img with processed := true }, none, true,
            true, false, Outcome.fallback⟩ := by
        unfold processImage
        dsimp only
        rw [if_neg hw, if_neg (by simp [hg]), if_neg (by simp [hc]), hd.1,
          hd.2]
      rw [e]
      exact ⟨rfl, rfl, rfl⟩
  refine ⟨key.1, ?_, ?_, ?_, key.2.1, key.2.2⟩
  · rw [key.1]; rfl
  · rw [key.1]; rfl
  · rw [key.1]; rfl

/-- Witness for C3 at a 300 by 300 image whose draw throws. -/
theorem processImage_cors_fallback_witness :
    (envCorsDraw.drawResult = DrawResult.corsError ∨
      (envCorsDraw.drawResult = DrawResult.ok
        ∧ envCorsDraw.readResult = none))
    ∧ ((processImage envCorsDraw imgBig).img =
        applyCssFallback { imgBig with processed := true }
       ∧ (processImage envCorsDraw imgBig).img.styleFilter =
          some ("invert(1) hue-rotate(180deg) brightness(1.1) contrast(1.1)",
            true)
       ∧ (processImage envCorsDraw imgBig).img.styleBackgroundColor =
          some "black"
       ∧ (processImage envCorsDraw imgBig).img.src = imgBig.src
       ∧ (processImage envCorsDraw imgBig).ranClassifier = false
       ∧ (processImage envCorsDraw imgBig).outcome = Outcome.fallback) :=
  ⟨by decide, processImage_cors_fallback envCorsDraw imgBig (by decide)
    (by decide) (by decide) (by decide)⟩

/-- Claim C7: for an eligible image whose pixel read succeeds and whose
classifier verdict is false, processImage stops without mutating source or
style: only the processed marker is set, and the canvas holds the drawn
buffer unchanged. -/
theorem processImage_not_inverted (env : Env) (img : Img) (data : Buffer)
    (hw : ¬ (img.naturalWidth < 120 ∨ img.naturalHeight < 120))
    (hg : srcIsGif img.src = false)
    (hc : env.ctxAvailable = true)
    (hd : env.drawResult = DrawResult.ok)
    (hr : env.readResult = some data)
    (hs : shouldInvert data = false) :
    processImage env img =
      ⟨{ img with processed := true }, some data, true, true, true,
        Outcome.notInverted⟩ := by
  unfold processImage
  dsimp only
  rw [if_neg hw, if_neg (by simp [hg]), if_neg (by simp [hc]), hd, hr]
  dsimp only
  rw [if_pos (by simp [hs])]

/-- Witness for C7 at a 300 by 300 image over a black pixel buffer. -/
theorem processImage_not_inverted_witness :
    shouldInvert [0, 0, 0, 0] = false
    ∧ processImage envBlack imgBig =
        ⟨{ imgBig with processed := true }, some [0, 0, 0, 0], true, true,
          true, Outcome.notInverted⟩ :=
  ⟨shouldInvert_black4,
   processImage_not_inverted envBlack imgBig [0, 0, 0, 0] (by decide)
    (by decide) (by decide) (by decide) (by decide) shouldInvert_black4⟩

/-- Claim C6: for an eligible image whose pixel read succeeds and whose
classifier verdict is true, processImage inverts every red, green and blue
byte of the buffer (alpha positions excepted), writes the inverted buffer
back to the offscreen canvas, replaces the source with the re-encoding of
that canvas, and leaves the processed marker set. -/
theorem processImage_inverted (env : Env) (img : Img) (data : Buffer)
    (hw : ¬ (img.naturalWidth < 120 ∨ img.naturalHeight < 120))
    (hg : srcIsGif img.src = false)
    (hc : env.ctxAvailable = true)
    (hd : env.drawResult = DrawResult.ok)
    (hr : env.readResult = some data)
    (hs : shouldInvert data = true) :
    processImage env img =
      ⟨{ img with
          processed := true,
          src := env.encode (invertImage data) },
        some (invertImage data), true, true, true, Outcome.inverted⟩
    ∧ ∀ j, j % 4 ≠ 3 →
        (invertImage data)[j]? = (fun v => 255 - v) <$> data[j]? := by
  constructor
  · unfold processImage
    dsimp only
    rw [if_neg hw, if_neg (by simp [hg]), if_neg (by simp [hc]), hd, hr]
    dsimp only
    rw [if_neg (by simp [hs])]
  · intro j hj
    rw [invertImage_getElem?, if_neg hj]

/-- Witness for C6 at a 300 by 300 image over a white pixel buffer. -/
theorem processImage_inverted_witness :
    shouldInvert [255, 255, 255, 255] = true
    ∧ (processImage envWhite imgBig =
        ⟨{ imgBig with
            processed := true,
            src := envWhite.encode (invertImage [255, 255, 255, 255]) },
          some (invertImage [255, 255, 255, 255]), true, true, true,
          Outcome.inverted⟩
       ∧ ∀ j, j % 4 ≠ 3 →
          (invertImage [255, 255, 255, 255])[j]? =
            (fun v => 255 - v) <$> ([255, 255, 255, 255] : Buffer)[j]?) :=
  ⟨shouldInvert_white4,
   processImage_inverted envWhite imgBig [255, 255, 255, 255] (by decide)
    (by decide) (by decide) (by decide) (by decide) shouldInvert_white4⟩

end AutoInvert
